import Mathlib

/-!
Verification of the OCR-to-Markdown reconstruction pipeline of `app.py`
(NCP_OCR repository).  The Python source is shallowly embedded: pixel
coordinates are integers (`Int`), missing JSON keys are `Option`, and the
single exceptional control path (reading the uninitialized `in_table`
local in the image call site) is modelled with an `Option` result.
The float comparison `y_diff > line_height * 1.5` is embedded exactly for
integer inputs as `2 * y_diff > 3 * line_height`.
-/

namespace NcpOcr

/-! ## Python string-primitive models (ASCII whitespace / letters) -/

/-- Model of Python whitespace characters recognized by `str.strip`
(ASCII subset: space, tab, newline, carriage return, vertical tab, form feed). -/
def pyIsSpace (c : Char) : Bool :=
  c = ' ' || c = '\t' || c = '\n' || c = '\r' || c = Char.ofNat 11 || c = Char.ofNat 12

/-- Character-list core of Python `str.strip`: drop whitespace from both ends. -/
def stripList (l : List Char) : List Char :=
  ((l.dropWhile pyIsSpace).reverse.dropWhile pyIsSpace).reverse

/-- Model of Python `str.strip()`. -/
def pyStrip (s : String) : String :=
  String.mk (stripList s.data)

/-- Model of Python `str.rstrip()`: drop trailing whitespace. -/
def pyRstrip (s : String) : String :=
  String.mk ((s.data.reverse.dropWhile pyIsSpace).reverse)

/-- Model of Python `str.isupper()` on a single character (ASCII letters). -/
def pyIsUpper (c : Char) : Bool :=
  c.isUpper

/-- Boolean prefix test on character lists (first argument is the candidate
prefix), modelling Python `str.startswith`. -/
def listIsPre : List Char → List Char → Bool
  | [], _ => true
  | _ :: _, [] => false
  | a :: as, b :: bs => (a == b) && listIsPre as bs

/-- Model of Python `str.startswith(p)`. -/
def pyStartsWith (s p : String) : Bool :=
  listIsPre p.data s.data

/-- Model of Python `c in s` for a single-character needle. -/
def pyContains (s : String) (c : Char) : Bool :=
  s.data.contains c

/-- Model of Python `sep.join(parts)`. -/
def pyJoin (sep : String) : List String → String
  | [] => ""
  | [x] => x
  | x :: y :: t => x ++ sep ++ pyJoin sep (y :: t)

/-- Splitting accumulator: `cur` holds the characters of the pending cell in
reverse order. -/
def splitChAux (c : Char) : List Char → List Char → List String
  | [], cur => [String.mk cur.reverse]
  | a :: rest, cur =>
    if a == c then String.mk cur.reverse :: splitChAux c rest []
    else splitChAux c rest (a :: cur)

/-- Model of Python `s.split(sep)` for a single-character separator (the
source only splits on `"|"` and `"\t"`): no collapsing of empty cells,
and `"".split(sep) == ['']`. -/
def pySplit (s : String) (c : Char) : List String :=
  splitChAux c s.data []

/-- Python `max` over a nonempty list given as head and tail. -/
def listMax (x : Int) (xs : List Int) : Int :=
  xs.foldl max x

/-- Python `min` over a nonempty list given as head and tail. -/
def listMin (x : Int) (xs : List Int) : Int :=
  xs.foldl min x

/-! ## Data model (app.py lines 103-115 / 273-284) -/

/-- One vertex of a `boundingPoly`; `x?`/`y?` are `none` when the JSON key is
absent (`vertex.get('x', 0)` supplies the default). -/
structure Vertex where
  x? : Option Int
  y? : Option Int
deriving DecidableEq

/-- `vertex.get('x', 0)` (app.py line 109 / 278). -/
def Vertex.getX (v : Vertex) : Int := v.x?.getD 0

/-- `vertex.get('y', 0)` (app.py line 110 / 279). -/
def Vertex.getY (v : Vertex) : Int := v.y?.getD 0

/-- One OCR fragment: `inferText` via `field.get('inferText', '')`, and the
vertex list via `field.get('boundingPoly', {}).get('vertices', [])`
(an absent `boundingPoly` shows up as the empty list, exactly as in the
source). -/
structure OcrField where
  inferText : String
  vertices : List Vertex
deriving DecidableEq

/-- `x_coords` of a fragment (app.py line 109 / 278). -/
def fieldXs (f : OcrField) : List Int := f.vertices.map Vertex.getX

/-- `y_coords` of a fragment (app.py line 110 / 279). -/
def fieldYs (f : OcrField) : List Int := f.vertices.map Vertex.getY

/-- `width = max(x_coords) - min(x_coords)` (app.py line 111 / 280);
0 for a fragment without vertices (never consulted in that case). -/
def fieldWidth (f : OcrField) : Int :=
  match fieldXs f with
  | [] => 0
  | x :: xs => listMax x xs - listMin x xs

/-- `height = max(y_coords) - min(y_coords)` (app.py line 112 / 281). -/
def fieldHeight (f : OcrField) : Int :=
  match fieldYs f with
  | [] => 0
  | y :: ys => listMax y ys - listMin y ys

/-- One entry of `ocr_result['images']`: the optional `fields` list and the
optional `title` (its `inferText`, with the `.get` defaults already
applied). -/
structure ImageResult where
  fields? : Option (List OcrField)
  title? : Option String
deriving DecidableEq

/-- The parsed OCR-API response body used by `process_pdf`: a JSON object
that may or may not carry an `images` key. -/
structure OcrResponse where
  images? : Option (List ImageResult)
deriving DecidableEq

/-! ## Line Grouper (app.py lines 91-166 / 265-331)

The grouping loop is written once, generic in the representation `α` of a
closed line (`push` wraps a flushed line, `blank` is the synthetic
paragraph marker appended on `new_paragraph`).  The source algorithm is
`groupStepG (fun s => s) ""`; the instrumented variant
`groupStepG some none` tags synthetic markers with `none` so that
provenance of empty entries can be stated. -/

/-- `y_threshold = 10` (app.py line 95 / 269). -/
def y_threshold : Int := 10

/-- `x_gap_threshold = 50` (app.py line 96 / 270). -/
def x_gap_threshold : Int := 50

/-- The `new_line` / `new_paragraph` decision (app.py lines 129-146 /
294-311).  `2 * y_diff > 3 * line_height` is the integer form of
`y_diff > line_height * 1.5`.  The caller passes `line_height.getD 0`;
whenever `ly?` is set, `line_height` has already been set by the first
vertexed fragment, so the default is never consulted. -/
def newFlags (ly? lxe? : Option Int) (line_height cy cxs : Int) : Bool × Bool :=
  match ly? with
  | none => (false, false)
  | some ly =>
    let y_diff := |cy - ly|
    if y_diff > y_threshold then
      (true, decide (2 * y_diff > 3 * line_height))
    else
      match lxe? with
      | none => (false, false)
      | some lxe => (decide (cxs - lxe > x_gap_threshold), false)

/-- Loop state of the Line Grouper, generic in the closed-line type. -/
structure GState (α : Type) where
  lines : List α
  current_line : List String
  last_y : Option Int
  last_x_end : Option Int
  line_height : Option Int
deriving DecidableEq

/-- Initial Line Grouper state (app.py lines 91-97 / 265-271). -/
def initG {α : Type} : GState α :=
  ⟨[], [], none, none, none⟩

/-- One iteration of `for field in fields` (app.py lines 103-162 /
273-327), generic in the closed-line representation. -/
def groupStepG {α : Type} (push : String → α) (blank : α)
    (st : GState α) (f : OcrField) : GState α :=
  match f.vertices with
  | [] => { st with current_line := st.current_line ++ [f.inferText] }
  | v :: vs =>
    let xs := vs.map Vertex.getX
    let ys := vs.map Vertex.getY
    let x0 := Vertex.getX v
    let y0 := Vertex.getY v
    let width := listMax x0 xs - listMin x0 xs
    let height := listMax y0 ys - listMin y0 ys
    let current_y := listMin y0 ys
    let current_x_start := listMin x0 xs
    let current_x_end := listMax x0 xs
    let st1 := if st.line_height = none then { st with line_height := some height } else st
    if width < height then st1
    else
      let fl := newFlags st1.last_y st1.last_x_end (st1.line_height.getD 0)
        current_y current_x_start
      let st2 :=
        if fl.1 then
          let st1a :=
            if st1.current_line = [] then st1
            else { st1 with lines := st1.lines ++ [push (pyJoin " " st1.current_line)],
                            current_line := [] }
          if fl.2 then { st1a with lines := st1a.lines ++ [blank] } else st1a
        else st1
      { st2 with current_line := st2.current_line ++ [f.inferText],
                 last_y := some current_y, last_x_end := some current_x_end }

/-- The full Line Grouper including the trailing flush (app.py lines
164-166 / 329-331), generic in the closed-line representation. -/
def groupLinesG {α : Type} (push : String → α) (blank : α)
    (fields : List OcrField) : List α :=
  let st := fields.foldl (groupStepG push blank) initG
  if st.current_line = [] then st.lines
  else st.lines ++ [push (pyJoin " " st.current_line)]

/-- `lines` as computed by the source (app.py lines 91-166 / 265-331). -/
def groupLines : List OcrField → List String :=
  groupLinesG (fun s => s) ""

/-- Instrumented Line Grouper: identical control flow, but a flushed line is
recorded as `some text` and the synthetic paragraph marker as `none`. -/
def groupLinesM : List OcrField → List (Option String) :=
  groupLinesG some none

/-- Erasure of the instrumentation: a marker becomes the empty string. -/
def eraseO (o : Option String) : String := o.getD ""

/-! ## Paragraph Assembler (app.py lines 168-202 / 333-367) -/

/-- The sentence-ending characters of
`line.rstrip().endswith(('.', '?', '!', ...))` (app.py line 183 / 348);
`Char.ofNat 39` is the ASCII apostrophe. -/
def sentenceEnders : List Char :=
  ['.', '?', '!', '\"', Char.ofNat 39, '」', '』', '》', '）', '】', ')']

/-- `ends_with_sentence` (app.py line 183 / 348): every suffix in the tuple
is a single character, so the test is on the last character of the
right-stripped line. -/
def ends_with_sentence (line : String) : Bool :=
  match (pyRstrip line).data.getLast? with
  | some c => sentenceEnders.contains c
  | none => false

/-- `next_line[0].isupper()` on a string (app.py line 189 / 354); the caller
guarantees the string is nonempty. -/
def headUpper (s : String) : Bool :=
  match s.data with
  | [] => false
  | c :: _ => pyIsUpper c

/-- `next_line_new_sentence` (app.py lines 186-190 / 351-355), as a function
of `lines[i+1]` (`none` when `i` is the last index). -/
def next_line_new_sentence (nl? : Option String) : Bool :=
  match nl? with
  | none => false
  | some nl =>
    if pyStrip nl = "" then false
    else
      let next_line := pyStrip nl
      headUpper next_line || pyStartsWith next_line "  "

/-- The `for i, line in enumerate(lines)` loop of the Paragraph Assembler
(app.py lines 172-198 / 337-363), with the trailing flush (lines 200-202 /
365-367).  `out` is `processed_lines`, `cp` is `current_paragraph`;
`rest.head?` is `lines[i+1]` and `rest.isEmpty` is `i == len(lines)-1`. -/
def processLinesAux (out cp : List String) : List String → List String
  | [] => if cp = [] then out else out ++ [pyJoin " " cp]
  | line :: rest =>
    if pyStrip line = "" then
      let out2 := if cp = [] then out else out ++ [pyJoin " " cp]
      processLinesAux (out2 ++ [""]) [] rest
    else
      let cp2 := cp ++ [line]
      if ends_with_sentence line && (next_line_new_sentence rest.head? || rest.isEmpty) then
        processLinesAux (out ++ [pyJoin " " cp2]) [] rest
      else
        processLinesAux out cp2 rest

/-- `processed_lines` as computed by the source. -/
def processLines (lines : List String) : List String :=
  processLinesAux [] [] lines

/-! ## Markdown Emitter

PDF call site (app.py lines 204-233): `in_table` is initialized to `False`
before the loop.  Image call site (app.py lines 369-393): the loop body is
identical but `in_table` is **never initialized**, so the first read of
`in_table` in the table branch, before any iteration has assigned it,
raises `UnboundLocalError`.  The image variant therefore carries
`Option Bool` for `in_table` (`none` = unbound) and returns `none` when
the unbound local is read. -/

/-- The heading test (app.py lines 215-216 / 377-378): both nested `if`s
must hold for `### ` emission; when the outer holds and the inner fails,
control falls through to the table test. -/
def headingFires (prev? next? : Option String) (line : String) : Bool :=
  (decide (line.length < 50) &&
    (match prev? with
     | none => true
     | some p => decide (pyStrip p = ""))) &&
  (match next? with
   | none => false
   | some n => decide (pyStrip n ≠ ""))

/-- `"| " + " | ".join(cells) + " |\n"` (app.py lines 225-228 / 387-390). -/
def mkRow (cells : List String) : String :=
  "| " ++ pyJoin " | " cells ++ " |\n"

/-- One iteration of the PDF-path Markdown loop (app.py lines 208-231),
state = (`in_table`, accumulated `markdown_text`). -/
def mdStep (prev? next? : Option String) (line : String) (st : Bool × String) :
    Bool × String :=
  let in_table := st.1
  let acc := st.2
  if pyStrip line = "" then (false, acc ++ "\n")
  else if headingFires prev? next? line then (in_table, acc ++ "### " ++ line ++ "\n\n")
  else if pyContains line '|' || pyContains line '\t' then
    let cells := if pyContains line '|' then pySplit line '|' else pySplit line '\t'
    if !in_table then
      (true, acc ++ mkRow cells ++ mkRow (cells.map fun _ => "---"))
    else (in_table, acc ++ mkRow cells)
  else (false, acc ++ line ++ "\n\n")

/-- The PDF-path Markdown loop; `prev?` is `processed_lines[i-1]` and
`rest.head?` is `processed_lines[i+1]`. -/
def mdLoop (prev? : Option String) (st : Bool × String) : List String → Bool × String
  | [] => st
  | line :: rest => mdLoop (some line) (mdStep prev? rest.head? line st) rest

/-- `markdown_text` of the PDF call site (app.py lines 204-233). -/
def markdownOf (processed : List String) : String :=
  (mdLoop none (false, "") processed).2

/-- One iteration of the image-path Markdown loop (app.py lines 370-393):
identical to `mdStep` except that `in_table` starts unbound; reading the
unbound local in the table branch is the `UnboundLocalError`, modelled as
result `none`. -/
def mdStepImg (prev? next? : Option String) (line : String)
    (st : Option Bool × String) : Option (Option Bool × String) :=
  let in_table? := st.1
  let acc := st.2
  if pyStrip line = "" then some (some false, acc ++ "\n")
  else if headingFires prev? next? line then some (in_table?, acc ++ "### " ++ line ++ "\n\n")
  else if pyContains line '|' || pyContains line '\t' then
    let cells := if pyContains line '|' then pySplit line '|' else pySplit line '\t'
    match in_table? with
    | none => none
    | some it =>
      if !it then
        some (some true, acc ++ mkRow cells ++ mkRow (cells.map fun _ => "---"))
      else some (some it, acc ++ mkRow cells)
  else some (some false, acc ++ line ++ "\n\n")

/-- The image-path Markdown loop, propagating the exceptional result. -/
def mdLoopImg (prev? : Option String) (st : Option Bool × String) :
    List String → Option (Option Bool × String)
  | [] => some st
  | line :: rest =>
    match mdStepImg prev? rest.head? line st with
    | none => none
    | some st2 => mdLoopImg (some line) st2 rest

/-- `markdown_text` of the image call site (app.py lines 369-393);
`none` means the loop raised `UnboundLocalError`. -/
def markdownOfImg (processed : List String) : Option String :=
  (mdLoopImg none (none, "") processed).map Prod.snd

/-! ## Top-level pipelines -/

/-- The reconstruction used by `ClovaOCRProcessor._extract_text` given a
`fields` list (app.py lines 88-233). -/
def pdfReconstruct (fields : List OcrField) : String :=
  markdownOf (processLines (groupLines fields))

/-- `_extract_text` (app.py lines 82-233), including the missing-`fields`
early return (lines 84-85). -/
def extract_text (ir : ImageResult) : String :=
  match ir.fields? with
  | none => ""
  | some fields => pdfReconstruct fields

/-- The inline reconstruction of `call_naver_ocr_image` given a `fields`
list (app.py lines 262-393); `none` models the raised
`UnboundLocalError`. -/
def imageReconstruct (fields : List OcrField) : Option String :=
  markdownOfImg (processLines (groupLines fields))

/-- `call_naver_ocr_image` from the parsed response onward (app.py lines
255-409), returning the `(markdown_text, error)` pair.  The
`UnboundLocalError` escaping the loop is caught by the generic
`except Exception` handler (line 408-409); its message is abstracted. -/
def call_naver_ocr_image (images? : Option (List ImageResult)) :
    Option String × Option String :=
  let markdown? : Option String :=
    match images? with
    | some (img0 :: _) =>
      match img0.fields? with
      | some fields => imageReconstruct fields
      | none =>
        match img0.title? with
        | some t => some ("# " ++ t ++ "\n\n")
        | none => some ""
    | _ => some ""
  match markdown? with
  | none => (none, some "OCR 처리 중 예상치 못한 오류: UnboundLocalError")
  | some md =>
    if md = "" then (none, some "이미지에서 텍스트를 추출하지 못했습니다.")
    else (some md, none)

/-- `process_pdf` from the parsed OCR response onward (app.py lines 47-54):
per-page headers and the `"\n\n"` join, with the fixed fallback when the
response is `None`, lacks `images`, or has an empty page list. -/
def process_pdf (r? : Option OcrResponse) : String :=
  match r? with
  | some resp =>
    match resp.images? with
    | some imgs =>
      if imgs = [] then "OCR 결과를 불러오지 못했습니다."
      else
        pyJoin "\n\n"
          (imgs.enum.map fun p => "## 페이지 " ++ toString (p.1 + 1) ++ "\n\n" ++ extract_text p.2)
    | none => "OCR 결과를 불러오지 못했습니다."
  | none => "OCR 결과를 불러오지 못했습니다."

/-! ## Auxiliary definitions for the claims -/

/-- A vertex with both coordinates made explicit: a missing coordinate is
replaced by the literal `0` that `vertex.get(_, 0)` supplies. -/
def fillVertex (v : Vertex) : Vertex :=
  ⟨some v.getX, some v.getY⟩

/-- A fragment with all vertex coordinates made explicit. -/
def fillField (f : OcrField) : OcrField :=
  ⟨f.inferText, f.vertices.map fillVertex⟩

/-- Componentwise mapping of the instrumented grouping state. -/
def mapG {α β : Type} (g : α → β) (st : GState α) : GState β :=
  ⟨st.lines.map g, st.current_line, st.last_y, st.last_x_end, st.line_height⟩

/-! ## Helper lemmas -/

/-- The head surviving `dropWhile` fails the predicate. -/
theorem dropWhile_cons_not (p : Char → Bool) :
    ∀ (l : List Char) (c : Char) (t : List Char), l.dropWhile p = c :: t → p c = false := by
  intro l
  induction l with
  | nil => intro c t h; simp [List.dropWhile] at h
  | cons a l' ih =>
    intro c t h
    rw [List.dropWhile_cons] at h
    by_cases hp : p a = true
    · rw [if_pos hp] at h; exact ih c t h
    · rw [if_neg hp] at h
      injection h with h1 h2
      subst h1
      simpa using hp

/-- A nonempty stripped list starts with a non-whitespace character. -/
theorem stripList_head_not_space {l : List Char} {c : Char} {t : List Char}
    (h : stripList l = c :: t) : pyIsSpace c = false := by
  have h' : List.rdropWhile pyIsSpace (l.dropWhile pyIsSpace) = c :: t := h
  have hpre : List.rdropWhile pyIsSpace (l.dropWhile pyIsSpace) <+: l.dropWhile pyIsSpace :=
    List.rdropWhile_prefix _ _
  rw [h'] at hpre
  obtain ⟨u, hu⟩ := hpre
  exact dropWhile_cons_not pyIsSpace l c (t ++ u) hu.symm

/-- A stripped string can never start with two spaces: the indentation
disjunct of `next_line_new_sentence` is dead code. -/
theorem pyStrip_not_startsWith_spaces (s : String) :
    pyStartsWith (pyStrip s) "  " = false := by
  show listIsPre ("  ".data) (stripList s.data) = false
  cases h : stripList s.data with
  | nil => rfl
  | cons c t =>
    have hc := stripList_head_not_space h
    have hcs : (' ' == c) = false := by
      cases heq : (' ' == c)
      · rfl
      · exfalso
        have he : ' ' = c := beq_iff_eq.mp heq
        rw [← he] at hc
        simp [pyIsSpace] at hc
    show listIsPre [' ', ' '] (c :: t) = false
    simp [listIsPre, hcs]

/-- Congruence of the grouping step under coordinate filling. -/
theorem groupStepG_fill {α : Type} (push : String → α) (blank : α)
    (st : GState α) (f : OcrField) :
    groupStepG push blank st (fillField f) = groupStepG push blank st f := by
  have hx : Vertex.getX ∘ fillVertex = Vertex.getX := funext fun v => rfl
  have hy : Vertex.getY ∘ fillVertex = Vertex.getY := funext fun v => rfl
  cases hv : f.vertices with
  | nil => simp [groupStepG, fillField, hv]
  | cons v vs =>
    simp [groupStepG, fillField, hv, List.map_map, hx, hy, fillVertex, Vertex.getX, Vertex.getY]

/-- Congruence of the Line Grouper under coordinate filling. -/
theorem groupLinesG_fill {α : Type} (push : String → α) (blank : α)
    (fields : List OcrField) :
    groupLinesG push blank (fields.map fillField) = groupLinesG push blank fields := by
  have h : (fun (st : GState α) f => groupStepG push blank st (fillField f)) = groupStepG push blank :=
    funext fun st => funext fun f => groupStepG_fill push blank st f
  simp only [groupLinesG, List.foldl_map, h]

/-- The grouping step commutes with re-representation of closed lines. -/
theorem groupStepG_map {α β : Type} (g : α → β) (push : String → α) (blank : α)
    (st : GState α) (f : OcrField) :
    groupStepG (fun s => g (push s)) (g blank) (mapG g st) f = mapG g (groupStepG push blank st f) := by
  cases st with
  | mk ls cl ly lxe lh =>
    cases hv : f.vertices with
    | nil => simp [groupStepG, mapG, hv]
    | cons v vs =>
      simp only [groupStepG, mapG, hv]
      split_ifs <;> simp_all [List.map_append]

/-- Fold version of `groupStepG_map`. -/
theorem foldl_groupStepG_map {α β : Type} (g : α → β) (push : String → α) (blank : α) :
    ∀ (fields : List OcrField) (st : GState α),
      fields.foldl (groupStepG (fun s => g (push s)) (g blank)) (mapG g st) =
        mapG g (fields.foldl (groupStepG push blank) st) := by
  intro fields
  induction fields with
  | nil => intro st; rfl
  | cons f t ih =>
    intro st
    simp only [List.foldl_cons, groupStepG_map]
    exact ih _

/-- The Line Grouper commutes with re-representation of closed lines. -/
theorem groupLinesG_map {α β : Type} (g : α → β) (push : String → α) (blank : α)
    (fields : List OcrField) :
    groupLinesG (fun s => g (push s)) (g blank) fields = (groupLinesG push blank fields).map g := by
  simp only [groupLinesG]
  have h0 : (initG : GState β) = mapG g (initG : GState α) := rfl
  rw [h0, foldl_groupStepG_map]
  by_cases hc : (fields.foldl (groupStepG push blank) initG).current_line = [] <;>
    simp [mapG, hc, List.map_append]

/-- Erasing the instrumentation of `groupLinesM` recovers `groupLines`. -/
theorem groupLinesM_erase (fields : List OcrField) :
    (groupLinesM fields).map eraseO = groupLines fields :=
  (groupLinesG_map eraseO some none fields).symm

/-- A space-join of a nonempty list of nonempty strings is nonempty. -/
theorem pyJoin_ne_empty : ∀ (l : List String), l ≠ [] → (∀ s ∈ l, s ≠ "") → pyJoin " " l ≠ "" := by
  intro l
  induction l with
  | nil => simp
  | cons x t ih =>
    intro _ hall
    cases t with
    | nil => simpa using hall x (by simp)
    | cons y u =>
      intro hcontra
      have hlen := congrArg String.length hcontra
      have hsp : (" " : String).length = 1 := rfl
      have hemp : ("" : String).length = 0 := rfl
      simp only [pyJoin, String.length_append, hsp, hemp] at hlen
      omega

/-- One instrumented grouping step preserves: the pending line has no empty
texts and no flushed entry is `some ""`. -/
theorem groupStepM_inv (st : GState (Option String)) (f : OcrField)
    (hf : f.inferText ≠ "")
    (h1 : ∀ s ∈ st.current_line, s ≠ "")
    (h2 : ∀ o ∈ st.lines, o ≠ some "") :
    (∀ s ∈ (groupStepG some none st f).current_line, s ≠ "") ∧
    (∀ o ∈ (groupStepG some none st f).lines, o ≠ some "") := by
  cases st with
  | mk ls cl ly lxe lh =>
    simp only at h1 h2
    by_cases hclq : cl = []
    · subst hclq
      cases hv : f.vertices with
      | nil =>
        simp only [groupStepG, hv]
        constructor
        · intro s hs
          simp at hs
          simpa [hs] using hf
        · exact h2
      | cons v vs =>
        simp only [groupStepG, hv]
        split_ifs <;>
          simp only [List.forall_mem_append, List.forall_mem_singleton, List.forall_mem_cons,
            List.not_mem_nil, List.forall_mem_ne] <;>
          simp_all
    · have hj : pyJoin " " cl ≠ "" := pyJoin_ne_empty cl hclq h1
      cases hv : f.vertices with
      | nil =>
        simp only [groupStepG, hv]
        constructor
        · intro s hs
          rcases List.mem_append.mp hs with h | h
          · exact h1 s h
          · simpa [List.mem_singleton.mp h] using hf
        · exact h2
      | cons v vs =>
        simp only [groupStepG, hv]
        split_ifs <;>
          simp only [List.forall_mem_append, List.forall_mem_singleton, List.forall_mem_cons,
            List.not_mem_nil, List.forall_mem_ne] <;>
          simp_all

/-- Fold version of `groupStepM_inv`. -/
theorem foldl_groupStepM_inv :
    ∀ (fields : List OcrField) (st : GState (Option String)),
      (∀ f ∈ fields, f.inferText ≠ "") →
      (∀ s ∈ st.current_line, s ≠ "") →
      (∀ o ∈ st.lines, o ≠ some "") →
      (∀ s ∈ (fields.foldl (groupStepG some none) st).current_line, s ≠ "") ∧
      (∀ o ∈ (fields.foldl (groupStepG some none) st).lines, o ≠ some "") := by
  intro fields
  induction fields with
  | nil => intro st _ h1 h2; exact ⟨h1, h2⟩
  | cons f t ih =>
    intro st hall h1 h2
    have hf : f.inferText ≠ "" := hall f (by simp)
    obtain ⟨h1', h2'⟩ := groupStepM_inv st f hf h1 h2
    exact ih _ (fun g hg => hall g (by simp [hg])) h1' h2'

/-- With all fragment texts nonempty, no instrumented entry is `some ""`:
empty entries of `lines` can only be the synthetic `none` markers. -/
theorem groupLinesM_no_empty (fields : List OcrField)
    (hall : ∀ f ∈ fields, f.inferText ≠ "") :
    ∀ o ∈ groupLinesM fields, o ≠ some "" := by
  unfold groupLinesM groupLinesG
  obtain ⟨h1, h2⟩ := foldl_groupStepM_inv fields initG hall (by simp [initG]) (by simp [initG])
  by_cases hc : (fields.foldl (groupStepG some none) initG).current_line = []
  · simpa [hc] using h2
  · simp only [hc, if_false]
    intro o ho
    rcases List.mem_append.mp ho with h | h
    · exact h2 o h
    · rw [List.mem_singleton.mp h]
      intro heq
      exact pyJoin_ne_empty _ hc h1 (Option.some.injEq .. ▸ heq)

/-- A set `line_height` is never changed by a grouping step. -/
theorem groupStepG_lh_some {α : Type} (push : String → α) (blank : α)
    (st : GState α) (f : OcrField) {h : Int} (hlh : st.line_height = some h) :
    (groupStepG push blank st f).line_height = some h := by
  cases st with
  | mk ls cl ly lxe lh =>
    simp only at hlh
    cases hv : f.vertices with
    | nil => simpa [groupStepG, hv] using hlh
    | cons v vs =>
      simp only [groupStepG, hv]
      split_ifs <;> simp_all

/-- A vertexed fragment leaves `line_height` set. -/
theorem groupStepG_lh_isSome {α : Type} (push : String → α) (blank : α)
    (st : GState α) (f : OcrField) (hv : f.vertices ≠ []) :
    ((groupStepG push blank st f).line_height).isSome := by
  cases hlh : st.line_height with
  | some h => rw [groupStepG_lh_some push blank st f hlh]; rfl
  | none =>
    cases st with
    | mk ls cl ly lxe lh =>
      simp only at hlh
      subst hlh
      cases hveq : f.vertices with
      | nil => exact absurd hveq hv
      | cons v vs =>
        simp only [groupStepG, hveq]
        split_ifs <;> simp_all

/-- Fold version of `groupStepG_lh_some`. -/
theorem foldl_lh_some {α : Type} (push : String → α) (blank : α) :
    ∀ (l : List OcrField) (st : GState α) (h : Int), st.line_height = some h →
      (l.foldl (groupStepG push blank) st).line_height = some h := by
  intro l
  induction l with
  | nil => intro st h hh; exact hh
  | cons f t ih =>
    intro st h hh
    exact ih _ h (groupStepG_lh_some push blank st f hh)

/-- After any fragment with vertices, `line_height` is set. -/
theorem foldl_lh_isSome {α : Type} (push : String → α) (blank : α) :
    ∀ (l : List OcrField) (st : GState α), (∃ g ∈ l, g.vertices ≠ []) →
      ((l.foldl (groupStepG push blank) st).line_height).isSome := by
  intro l
  induction l with
  | nil => intro st h; simp at h
  | cons f t ih =>
    intro st hex
    by_cases hfv : f.vertices = []
    · have hex' : ∃ g ∈ t, g.vertices ≠ [] := by
        rcases hex with ⟨g, hg, hgv⟩
        rcases List.mem_cons.mp hg with rfl | hg'
        · exact absurd hfv hgv
        · exact ⟨g, hg', hgv⟩
      exact ih _ hex'
    · have h1 := groupStepG_lh_isSome push blank st f hfv
      obtain ⟨h, hh⟩ := Option.isSome_iff_exists.mp h1
      rw [List.foldl_cons, foldl_lh_some push blank t _ h hh]
      rfl

/-- Once `line_height` is set, a taller-than-wide fragment is a no-op. -/
theorem groupStepG_drop {α : Type} (push : String → α) (blank : α)
    (st : GState α) (f : OcrField) {h : Int} (hlh : st.line_height = some h)
    (hwh : fieldWidth f < fieldHeight f) :
    groupStepG push blank st f = st := by
  cases hveq : f.vertices with
  | nil =>
    exfalso
    simp [fieldWidth, fieldHeight, fieldXs, fieldYs, hveq] at hwh
  | cons v vs =>
    have hw : fieldWidth f = listMax (Vertex.getX v) (vs.map Vertex.getX)
        - listMin (Vertex.getX v) (vs.map Vertex.getX) := by
      simp [fieldWidth, fieldXs, hveq]
    have hht : fieldHeight f = listMax (Vertex.getY v) (vs.map Vertex.getY)
        - listMin (Vertex.getY v) (vs.map Vertex.getY) := by
      simp [fieldHeight, fieldYs, hveq]
    rw [hw, hht] at hwh
    simp only [groupStepG, hveq]
    rw [if_pos hwh, if_neg (by simp [hlh])]

/-- Splicing out a taller-than-wide fragment that is preceded by some
vertexed fragment does not change the grouped lines. -/
theorem groupLinesG_drop {α : Type} (push : String → α) (blank : α)
    (l1 l2 : List OcrField) (f : OcrField)
    (hwh : fieldWidth f < fieldHeight f)
    (hprev : ∃ g ∈ l1, g.vertices ≠ []) :
    groupLinesG push blank (l1 ++ f :: l2) = groupLinesG push blank (l1 ++ l2) := by
  unfold groupLinesG
  rw [List.foldl_append, List.foldl_append, List.foldl_cons]
  have hs := foldl_lh_isSome push blank l1 initG hprev
  obtain ⟨h, hh⟩ := Option.isSome_iff_exists.mp hs
  rw [groupStepG_drop push blank _ f hh hwh]

/-- `enumFrom`-to-`range` reindexing of a mapped enumeration. -/
theorem enumFrom_map_getD {α β : Type} (d : α) (f : Nat × α → β) :
    ∀ (l : List α) (n : Nat),
      (List.enumFrom n l).map f = (List.range l.length).map fun i => f (n + i, l.getD i d) := by
  intro l
  induction l with
  | nil => intro n; rfl
  | cons a t ih =>
    intro n
    rw [List.length_cons, List.range_succ_eq_map]
    simp only [List.enumFrom, List.map_cons, List.map_map]
    congr 1
    rw [ih (n + 1)]
    apply List.map_congr_left
    intro i hi
    simp only [Function.comp_apply, List.getD_cons_succ]
    rw [show n + 1 + i = n + (i + 1) from by omega]

/-! ## Claims -/

/-- Claim C1: the claim says the PDF call site (`_extract_text`) and the
image call site of the reconstruction produce the same Markdown on every
fragment list.  They do not: the image call site never initializes
`in_table`, so on the single no-box fragment `"a|b"` the PDF path emits a
table while the image path raises `UnboundLocalError` (modelled as
`none`).  This theorem evaluates both call sites at that failing input. -/
theorem claim1_call_sites_diverge :
    pdfReconstruct [⟨"a|b", []⟩] = "| a | b |\n| --- | --- |\n" ∧
    imageReconstruct [⟨"a|b", []⟩] = none := by
  constructor <;> decide

/-- Claim C2: the claim says the core reconstruction never raises in either
path.  The PDF path is total, but the image path raises
`UnboundLocalError` whenever the first non-blank processed line contains
`'|'` or a tab: here the single fragment `"x\ty"` makes the PDF path emit
a table while the image call site faults (modelled as `none`), and the
wrapper converts the exception into its generic error message. -/
theorem claim2_image_path_raises :
    pdfReconstruct [⟨"x\ty", []⟩] = "| x | y |\n| --- | --- |\n" ∧
    imageReconstruct [⟨"x\ty", []⟩] = none ∧
    call_naver_ocr_image (some [⟨some [⟨"x\ty", []⟩], none⟩]) =
      (none, some "OCR 처리 중 예상치 못한 오류: UnboundLocalError") := by
  refine ⟨by decide, by decide, by decide⟩

/-- Claim C3 counterexample: the next line `"  bb"` is non-blank and starts
with two spaces yet is not treated as a new sentence, because the code
tests `startswith('  ')` on the already-stripped string; consequently
`"A."` and `"  bb"` are merged into one paragraph. -/
theorem claim3_counterexample :
    pyStrip "  bb" ≠ "" ∧ pyStartsWith "  bb" "  " = true ∧
    headUpper (pyStrip "  bb") = false ∧
    next_line_new_sentence (some "  bb") = false ∧
    processLines ["A.", "  bb"] = ["A.   bb"] := by
  refine ⟨by decide, by decide, by decide, by decide, by decide⟩

/-- Claim C3 (amended): `next_line_new_sentence` is true iff a next line
exists, strips to non-blank, and the stripped line's first character is
uppercase; the two-space indentation disjunct is applied to the stripped
line and therefore never fires. -/
theorem claim3_amended (nl? : Option String) :
    next_line_new_sentence nl? =
      (match nl? with
       | none => false
       | some nl => if pyStrip nl = "" then false else headUpper (pyStrip nl)) := by
  cases nl? with
  | none => rfl
  | some nl =>
    simp only [next_line_new_sentence]
    by_cases h : pyStrip nl = ""
    · simp [h]
    · simp [h, pyStrip_not_startsWith_spaces]

/-- Claim C4 counterexample: a first vertexed fragment of height 0 fixes
`line_height = 0`, and the next fragment 20 pixels lower then triggers
`new_paragraph` (since `y_diff > 1.5 * 0` holds whenever `y_diff > 10`),
inserting the empty-string marker the claim says can never appear. -/
theorem claim4_counterexample :
    (([⟨"A", [⟨some 0, some 0⟩, ⟨some 10, some 0⟩]⟩,
       ⟨"B", [⟨some 0, some 20⟩, ⟨some 50, some 30⟩]⟩] : List OcrField).foldl
        (groupStepG (fun s => s) "") initG).line_height = some 0 ∧
    groupLines [⟨"A", [⟨some 0, some 0⟩, ⟨some 10, some 0⟩]⟩,
       ⟨"B", [⟨some 0, some 20⟩, ⟨some 50, some 30⟩]⟩] = ["A", "", "B"] := by
  constructor <;> decide

/-- Claim C4 (amended): with `line_height = 0` the paragraph threshold
`1.5 * line_height` is 0, so `new_paragraph` triggers exactly when the
vertical-displacement test `y_diff > 10` triggers a new line (and zero
height still causes no division or comparison fault: the comparison is
total). -/
theorem claim4_amended (ly : Int) (lxe? : Option Int) (cy cxs : Int) :
    (newFlags (some ly) lxe? 0 cy cxs).2 = decide (|cy - ly| > y_threshold) := by
  simp only [newFlags]
  by_cases h : |cy - ly| > y_threshold
  · have h3 : cy - ly ≠ 0 := by
      intro h0
      rw [h0] at h
      simp [y_threshold] at h
    simp [h, h3]
  · cases lxe? <;> simp [h]

/-- Claim C5 counterexample: a single fragment whose text is the empty
string yields `lines = [""]` where the empty entry is a flushed line
derived from the fragment (instrumented as `some ""`), not a synthetic
paragraph marker (`none`). -/
theorem claim5_counterexample :
    groupLines [⟨"", []⟩] = [""] ∧ groupLinesM [⟨"", []⟩] = [some ""] := by
  constructor <;> decide

/-- Claim C5 (amended): provided every fragment text is nonempty, every
empty-string entry of `lines` is a synthetic paragraph-break marker: in
the instrumented grouping (flushed lines tagged `some`, markers `none`,
erasing to exactly `groupLines`) no flushed entry is the empty string. -/
theorem claim5_amended (fields : List OcrField)
    (hall : ∀ f ∈ fields, f.inferText ≠ "") :
    (groupLinesM fields).map eraseO = groupLines fields ∧
    ∀ o ∈ groupLinesM fields, o ≠ some "" :=
  ⟨groupLinesM_erase fields, groupLinesM_no_empty fields hall⟩

/-- Claim C5 witness: the amended claim at a concrete one-fragment input. -/
theorem claim5_witness :
    (groupLinesM [⟨"a", []⟩]).map eraseO = groupLines [⟨"a", []⟩] ∧
    ∀ o ∈ groupLinesM [⟨"a", []⟩], o ≠ some "" :=
  claim5_amended [⟨"a", []⟩] (by decide)

/-- Claim C6 counterexample: the taller-than-wide fragment `"V"` (width 0,
height 100) is dropped from the text, yet as the first vertexed fragment
it fixes `line_height = 100`, suppressing the paragraph break that the
same page exhibits once `"V"` is removed (`line_height` then becomes 10):
the Markdown outputs differ. -/
theorem claim6_counterexample :
    fieldWidth ⟨"V", [⟨some 0, some 0⟩, ⟨some 0, some 100⟩]⟩ <
      fieldHeight ⟨"V", [⟨some 0, some 0⟩, ⟨some 0, some 100⟩]⟩ ∧
    pdfReconstruct [⟨"V", [⟨some 0, some 0⟩, ⟨some 0, some 100⟩]⟩,
      ⟨"A", [⟨some 0, some 0⟩, ⟨some 50, some 10⟩]⟩,
      ⟨"B", [⟨some 0, some 20⟩, ⟨some 50, some 30⟩]⟩] = "A B\n\n" ∧
    pdfReconstruct [⟨"A", [⟨some 0, some 0⟩, ⟨some 50, some 10⟩]⟩,
      ⟨"B", [⟨some 0, some 20⟩, ⟨some 50, some 30⟩]⟩] = "A\n\n\nB\n\n" := by
  refine ⟨by decide, by decide, by decide⟩

/-- Claim C6 (amended): a fragment with `width < height` is excluded from
all downstream structure — the Markdown output equals the output with the
fragment removed — provided some earlier fragment has bounding-box
vertices (so the dropped fragment is not the one fixing the page's
`line_height`). -/
theorem claim6_amended (l1 l2 : List OcrField) (f : OcrField)
    (hwh : fieldWidth f < fieldHeight f)
    (hprev : ∃ g ∈ l1, g.vertices ≠ []) :
    pdfReconstruct (l1 ++ f :: l2) = pdfReconstruct (l1 ++ l2) := by
  unfold pdfReconstruct
  rw [show groupLines (l1 ++ f :: l2) = groupLines (l1 ++ l2) from
    groupLinesG_drop _ _ l1 l2 f hwh hprev]

/-- Claim C6 witness: the amended claim at a concrete input where the
vertical fragment is preceded by a vertexed fragment. -/
theorem claim6_witness :
    pdfReconstruct ([⟨"A", [⟨some 0, some 0⟩, ⟨some 50, some 10⟩]⟩] ++
        (⟨"V", [⟨some 0, some 0⟩, ⟨some 0, some 100⟩]⟩ : OcrField) ::
          [⟨"B", [⟨some 0, some 20⟩, ⟨some 50, some 30⟩]⟩]) =
      pdfReconstruct ([⟨"A", [⟨some 0, some 0⟩, ⟨some 50, some 10⟩]⟩] ++
        [⟨"B", [⟨some 0, some 20⟩, ⟨some 50, some 30⟩]⟩]) :=
  claim6_amended [⟨"A", [⟨some 0, some 0⟩, ⟨some 50, some 10⟩]⟩]
    [⟨"B", [⟨some 0, some 20⟩, ⟨some 50, some 30⟩]⟩]
    ⟨"V", [⟨some 0, some 0⟩, ⟨some 0, some 100⟩]⟩ (by decide) (by decide)

/-- Claim C7 counterexample: for an empty `fields` list the image call site
does report an error — `call_naver_ocr_image` returns the fixed
extraction-failure message instead of an empty success — contradicting
the claim that the empty page is "not reported as an error" in both
paths. -/
theorem claim7_counterexample :
    (call_naver_ocr_image (some [⟨some [], none⟩])).2 =
      some "이미지에서 텍스트를 추출하지 못했습니다." := by
  decide

/-- Claim C7 (amended): an empty fragment sequence (or a page without the
`fields` key) produces empty `lines`, empty `processed_lines` and empty
Markdown, and the PDF path returns that empty page text as a non-error;
the image path, however, turns the empty Markdown into its fixed
extraction-failure error message. -/
theorem claim7_amended :
    groupLines [] = [] ∧ processLines [] = [] ∧ pdfReconstruct [] = "" ∧
    extract_text ⟨none, none⟩ = "" ∧ imageReconstruct [] = some "" ∧
    call_naver_ocr_image (some [⟨some [], none⟩]) =
      (none, some "이미지에서 텍스트를 추출하지 못했습니다.") := by
  refine ⟨by decide, by decide, by decide, by decide, by decide, by decide⟩

/-- Claim C8: a line containing `'|'` emitted while not in a table produces
a header row followed by a separator row with exactly one `---` cell per
header cell (the separator's cell list is the cell list mapped to
`"---"`, hence of equal length). -/
theorem claim8_table_shape (prev? next? : Option String) (line acc : String)
    (h1 : pyContains line '|' = true)
    (h2 : pyStrip line ≠ "")
    (h3 : headingFires prev? next? line = false) :
    mdStep prev? next? line (false, acc) =
      (true, acc ++ mkRow (pySplit line '|') ++ mkRow ((pySplit line '|').map fun _ => "---")) ∧
    ((pySplit line '|').map fun _ => "---").length = (pySplit line '|').length := by
  constructor
  · simp [mdStep, h1, h2, h3]
  · exact List.length_map _ _

/-- Claim C8 witness: the table-shape theorem at the concrete line
`"a|b"`. -/
theorem claim8_witness :
    mdStep none none "a|b" (false, "") =
      (true, "" ++ mkRow (pySplit "a|b" '|') ++ mkRow ((pySplit "a|b" '|').map fun _ => "---")) ∧
    ((pySplit "a|b" '|').map fun _ => "---").length = (pySplit "a|b" '|').length :=
  claim8_table_shape none none "a|b" "" (by decide) (by decide) (by decide)

/-- Claim C9: for a response with a nonempty page list, `process_pdf` emits
`## 페이지 (idx+1)` headers over the per-page extracted texts joined with
`"\n\n"`; a `None` response, a response without `images`, or an empty page
list all yield the fixed fallback string. -/
theorem claim9_aggregation (imgs : List ImageResult) (h : imgs ≠ []) :
    process_pdf (some ⟨some imgs⟩) =
      pyJoin "\n\n" ((List.range imgs.length).map fun idx =>
        "## 페이지 " ++ toString (idx + 1) ++ "\n\n" ++ extract_text (imgs.getD idx ⟨none, none⟩)) ∧
    process_pdf none = "OCR 결과를 불러오지 못했습니다." ∧
    process_pdf (some ⟨none⟩) = "OCR 결과를 불러오지 못했습니다." ∧
    process_pdf (some ⟨some []⟩) = "OCR 결과를 불러오지 못했습니다." := by
  refine ⟨?_, rfl, rfl, rfl⟩
  simp only [process_pdf, List.enum]
  rw [if_neg h, enumFrom_map_getD (⟨none, none⟩ : ImageResult)]
  congr 1
  apply List.map_congr_left
  intro i hi
  simp

/-- Claim C9 witness: the aggregation theorem at a one-page response. -/
theorem claim9_witness :
    process_pdf (some ⟨some [(⟨none, none⟩ : ImageResult)]⟩) =
      pyJoin "\n\n" ((List.range ([(⟨none, none⟩ : ImageResult)]).length).map fun idx =>
        "## 페이지 " ++ toString (idx + 1) ++ "\n\n" ++
          extract_text ([(⟨none, none⟩ : ImageResult)].getD idx ⟨none, none⟩)) ∧
    process_pdf none = "OCR 결과를 불러오지 못했습니다." ∧
    process_pdf (some ⟨none⟩) = "OCR 결과를 불러오지 못했습니다." ∧
    process_pdf (some ⟨some []⟩) = "OCR 결과를 불러오지 못했습니다." :=
  claim9_aggregation [⟨none, none⟩] (by simp)

/-- Claim C10: a vertex coordinate whose key is absent is treated as 0
throughout: replacing every missing coordinate by an explicit 0
(`fillField`) leaves both the PDF-path and the image-path reconstruction
outputs unchanged (and both embeddings are total functions, so no error
is raised). -/
theorem claim10_missing_coords (fields : List OcrField) :
    pdfReconstruct (fields.map fillField) = pdfReconstruct fields ∧
    imageReconstruct (fields.map fillField) = imageReconstruct fields := by
  have hg : groupLines (fields.map fillField) = groupLines fields :=
    groupLinesG_fill (fun s => s) "" fields
  constructor
  · unfold pdfReconstruct
    rw [hg]
  · unfold imageReconstruct
    rw [hg]

end NcpOcr
